import Mathlib

/-!
Shallow embedding of the `fast-floats` crate (`src/lib.rs`).

The crate defines a transparent wrapper `Fast<F>` around a floating-point
scalar, with macro-generated binary operators (add, sub, mul, div, rem) in
three operand shapes, compound-assignment operators derived generically from
the binary ones, `Deref`-based transparent access, a `From` conversion, and
formatting passthrough for four formatting traits.

The arithmetic on the raw scalars is performed by the compiler intrinsics
`fadd_fast`, `fsub_fast`, `fmul_fast`, `fdiv_fast`, `frem_fast`, whose numeric
behaviour is determined by the compiler backend, not by this crate.  The
embedding therefore keeps the scalar type `F` and the five intrinsics
abstract: the crate's own content is the wrapping, delegation and
passthrough structure, which is captured exactly.
-/

/-- Embeds `pub struct Fast<F>(F)` : a transparent single-field wrapper.
The field `val` is the tuple field `.0` of the Rust struct. -/
structure Fast (F : Type) where
  val : F
  deriving DecidableEq

/-- Embeds `Fast::new` (`pub const unsafe fn new(value: F) -> Self { Fast(value) }`):
unchecked construction, stores the value with no validation. -/
def Fast.new {F : Type} (value : F) : Fast F :=
  Fast.mk value

/-- Embeds `impl<F> const Deref for Fast<F>` (`fn deref(&self) -> &F { &self.0 }`):
transparent read access to the stored scalar. -/
def Fast.deref {F : Type} (self : Fast F) : F :=
  self.val

/-- Embeds `impl<F> From<F> for Fast<F>` (`fn from(f: F) -> Self { Self(f) }`).
Named `fromRaw` because `from` is a Lean keyword. -/
def Fast.fromRaw {F : Type} (f : F) : Fast F :=
  Fast.mk f

/-- The five binary operators generated by the `impl_op!` invocation:
`Add, Sub, Mul, Div, Rem`. -/
inductive Op : Type
  | add
  | sub
  | mul
  | div
  | rem
  deriving DecidableEq

/-- The five fast-math intrinsics a width (`f32` or `f64`) supplies:
`fadd_fast, fsub_fast, fmul_fast, fdiv_fast, frem_fast`.  Their numeric
behaviour is backend-defined, so they are abstract binary functions here. -/
structure FastIntrinsics (F : Type) where
  fadd_fast : F → F → F
  fsub_fast : F → F → F
  fmul_fast : F → F → F
  fdiv_fast : F → F → F
  frem_fast : F → F → F

/-- The intrinsic the `impl_op!` invocation pairs with each operator
(`Add, add, fadd_fast; Sub, sub, fsub_fast; ...`). -/
def FastIntrinsics.get {F : Type} (I : FastIntrinsics F) : Op → F → F → F
  | Op.add => I.fadd_fast
  | Op.sub => I.fsub_fast
  | Op.mul => I.fmul_fast
  | Op.div => I.fdiv_fast
  | Op.rem => I.frem_fast

/-- Embeds the `Fast<F> ⊕ F` impl of `impl_op`:
`fn $method(self, rhs: F) -> Self { Fast($intrins(self.0, rhs)) }`. -/
def binOpWR {F : Type} (I : FastIntrinsics F) (op : Op) (self : Fast F) (rhs : F) : Fast F :=
  Fast.mk (I.get op self.val rhs)

/-- Embeds the `F ⊕ Fast<F>` impl of `impl_op`:
`fn $method(self, rhs: Fast<F>) -> Fast<F> { Fast(self).$method(rhs.0) }` —
a delegation to the wrapped-raw form. -/
def binOpRW {F : Type} (I : FastIntrinsics F) (op : Op) (self : F) (rhs : Fast F) : Fast F :=
  binOpWR I op (Fast.mk self) rhs.val

/-- Embeds the `Fast<F> ⊕ Fast<F>` impl of `impl_op`:
`fn $method(self, rhs: Self) -> Self { self.$method(rhs.0) }` —
a delegation to the wrapped-raw form. -/
def binOpWW {F : Type} (I : FastIntrinsics F) (op : Op) (self rhs : Fast F) : Fast F :=
  binOpWR I op self rhs.val

/-- Embeds `impl_assignop`:
`fn $method(&mut self, rhs: Rhs) { *self = (*self).$opmth(rhs) }`.
Mutation is modelled by returning the new value of `self`; the binary
operator it delegates to is a parameter, exactly as in the generic impl
(`where Self: $optrt<Rhs, Output=Self>`). -/
def assignOp {α Rhs : Type} (opmth : α → Rhs → α) (self : α) (rhs : Rhs) : α :=
  opmth self rhs

/-- The four formatting traits of the `impl_format!` invocation:
`Debug Display LowerExp UpperExp`. -/
inductive FmtTrait : Type
  | debug
  | display
  | lowerExp
  | upperExp
  deriving DecidableEq

/-- Embeds the `impl_format` macro:
`fn fmt(&self, f: &mut Formatter) -> Result { self.0.fmt(f) }`.
The raw type's formatter for each trait is abstract
(`rawFmt : FmtTrait → F → String`); the wrapper's formatter forwards to it
on the stored value. -/
def Fast.fmt {F : Type} (rawFmt : FmtTrait → F → String) (t : FmtTrait) (self : Fast F) :
    String :=
  rawFmt t self.val

/-- Embeds the `PartialEq` instance of `#[derive(Copy, Clone, PartialEq, PartialOrd)]`
on the single-field struct: wrapped equality compares the stored fields with
the raw type's (possibly partial, `Bool`-valued) equality. -/
def Fast.beq {F : Type} (beqF : F → F → Bool) (x y : Fast F) : Bool :=
  beqF x.val y.val

/-- Embeds the strict-less-than comparison of the derived `PartialOrd`
instance: wrapped comparison compares the stored fields with the raw type's
(possibly partial, `Bool`-valued) less-than. -/
def Fast.ltb {F : Type} (ltF : F → F → Bool) (x y : Fast F) : Bool :=
  ltF x.val y.val

/-- C2: every operation of the public surface — construction, conversion,
the five binary operators in all three operand shapes, the five
compound-assignment operators (with raw or wrapped right-hand side),
transparent access, and formatting — is total: for every input, including
arbitrary scalar values (so in particular the values modelling NaN and
Infinity), it returns a result. -/
theorem surface_total {F : Type} (I : FastIntrinsics F) (rawFmt : FmtTrait → F → String) :
    (∀ (v : F), ∃ w : Fast F, Fast.new v = w) ∧
    (∀ (v : F), ∃ w : Fast F, Fast.fromRaw v = w) ∧
    (∀ (op : Op) (a : Fast F) (b : F), ∃ r : F, binOpWR I op a b = Fast.mk r) ∧
    (∀ (op : Op) (a : F) (b : Fast F), ∃ r : F, binOpRW I op a b = Fast.mk r) ∧
    (∀ (op : Op) (a b : Fast F), ∃ r : F, binOpWW I op a b = Fast.mk r) ∧
    (∀ (op : Op) (x : Fast F) (rhs : F), ∃ r : F, assignOp (binOpWR I op) x rhs = Fast.mk r) ∧
    (∀ (op : Op) (x rhs : Fast F), ∃ r : F, assignOp (binOpWW I op) x rhs = Fast.mk r) ∧
    (∀ (x : Fast F), ∃ r : F, Fast.deref x = r) ∧
    (∀ (t : FmtTrait) (v : F), ∃ s : String, Fast.fmt rawFmt t (Fast.new v) = s) :=
  ⟨fun v => ⟨Fast.mk v, rfl⟩,
   fun v => ⟨Fast.mk v, rfl⟩,
   fun op a b => ⟨I.get op a.val b, rfl⟩,
   fun op a b => ⟨I.get op a b.val, rfl⟩,
   fun op a b => ⟨I.get op a.val b.val, rfl⟩,
   fun op x rhs => ⟨I.get op x.val rhs, rfl⟩,
   fun op x rhs => ⟨I.get op x.val rhs.val, rfl⟩,
   fun x => ⟨x.val, rfl⟩,
   fun t v => ⟨rawFmt t v, rfl⟩⟩

/-- C3: for every operator and all raw values `a, b`, the three operand
shapes agree: `wrap(a) ⊕ b`, `a ⊕ wrap(b)` and `wrap(a) ⊕ wrap(b)` all
produce the same wrapped result, because the mixed and wrapped-wrapped
forms delegate to the single wrapped-raw form. -/
theorem shapes_agree {F : Type} (I : FastIntrinsics F) (op : Op) (a b : F) :
    binOpWR I op (Fast.new a) b = binOpWW I op (Fast.new a) (Fast.new b) ∧
    binOpRW I op a (Fast.new b) = binOpWW I op (Fast.new a) (Fast.new b) :=
  ⟨rfl, rfl⟩

/-- C4: for every operator and all values `a, b`, executing
`let mut x = wrap(a); x ⊕= b;` (with either a raw or a wrapped right-hand
side) leaves `x` equal to `wrap(a) ⊕ wrap(b)`: the compound-assignment form
computes the corresponding binary operation and overwrites the left
operand with the result. -/
theorem assign_op_correct {F : Type} (I : FastIntrinsics F) (op : Op) (a b : F) :
    assignOp (binOpWR I op) (Fast.new a) b = binOpWW I op (Fast.new a) (Fast.new b) ∧
    assignOp (binOpWW I op) (Fast.new a) (Fast.new b)
      = binOpWW I op (Fast.new a) (Fast.new b) :=
  ⟨rfl, rfl⟩

/-- C5: for every raw value `v` (the scalar type is abstract, so this covers
the values modelling NaN and Infinity), unchecked construction followed by
transparent access is the identity: `*Fast::new(v) == v`. -/
theorem deref_new_id {F : Type} (v : F) : Fast.deref (Fast.new v) = v :=
  rfl

/-- C6: for every raw value `v`, the implicit conversion path (`From`) and
the unchecked construction path (`Fast::new`) produce wrapped values with
identical stored representations: the two entry points have identical
effect. -/
theorem from_eq_new {F : Type} (v : F) :
    Fast.fromRaw v = Fast.new v ∧ (Fast.fromRaw v).val = (Fast.new v).val :=
  ⟨rfl, rfl⟩

/-- C7: for every raw value `v` (including the values modelling NaN and
Infinity) and each of the four formatting traits, formatting the wrapped
value produces exactly the output of the raw value's own formatter:
formatting is pure passthrough. -/
theorem fmt_passthrough {F : Type} (rawFmt : FmtTrait → F → String) (t : FmtTrait) (v : F) :
    Fast.fmt rawFmt t (Fast.new v) = rawFmt t v :=
  rfl

/-- C8: the concrete scenarios.  Given that the backend intrinsics produce
the exact arithmetic results at these exactly representable points
(`2.0 + 1.0 = 3.0`, `1.0 − 2.0 = −1.0`, `5.0 % 2.0 = 1.0`, as the crate's
own tests assert) and that the raw equality is reflexive at the result
values, the wrapped operations satisfy
`wrap(2) + wrap(1) == wrap(3)`, `x = wrap(1); x -= wrap(2); x == wrap(-1)`
and `wrap(5) % wrap(2) == wrap(1)`. -/
theorem concrete_scenarios {F : Type} (I : FastIntrinsics F) (beqF : F → F → Bool)
    (one two three five negOne : F)
    (hadd : I.fadd_fast two one = three)
    (hsub : I.fsub_fast one two = negOne)
    (hrem : I.frem_fast five two = one)
    (h3 : beqF three three = true)
    (hn : beqF negOne negOne = true)
    (h1 : beqF one one = true) :
    Fast.beq beqF (binOpWW I Op.add (Fast.new two) (Fast.new one)) (Fast.new three) = true ∧
    Fast.beq beqF (assignOp (binOpWW I Op.sub) (Fast.new one) (Fast.new two))
      (Fast.new negOne) = true ∧
    Fast.beq beqF (binOpWW I Op.rem (Fast.new five) (Fast.new two)) (Fast.new one) = true := by
  refine ⟨?_, ?_, ?_⟩ <;>
    simp [Fast.beq, binOpWW, binOpWR, assignOp, Fast.new, FastIntrinsics.get,
      hadd, hsub, hrem, h3, hn, h1]

/-- Witness for C8: the hypotheses of `concrete_scenarios` are satisfiable —
instantiating the abstract scalar with the integers (on which the three
scenario computations are exact) discharges every hypothesis. -/
theorem concrete_scenarios_witness :
    Fast.beq (fun a b : Int => decide (a = b))
      (binOpWW ⟨(· + ·), (· - ·), (· * ·), (· / ·), (· % ·)⟩ Op.add
        (Fast.new 2) (Fast.new 1)) (Fast.new 3) = true ∧
    Fast.beq (fun a b : Int => decide (a = b))
      (assignOp (binOpWW ⟨(· + ·), (· - ·), (· * ·), (· / ·), (· % ·)⟩ Op.sub)
        (Fast.new 1) (Fast.new 2)) (Fast.new (-1)) = true ∧
    Fast.beq (fun a b : Int => decide (a = b))
      (binOpWW ⟨(· + ·), (· - ·), (· * ·), (· / ·), (· % ·)⟩ Op.rem
        (Fast.new 5) (Fast.new 2)) (Fast.new 1) = true :=
  concrete_scenarios ⟨(· + ·), (· - ·), (· * ·), (· / ·), (· % ·)⟩
    (fun a b : Int => decide (a = b)) 1 2 3 5 (-1)
    (by decide) (by decide) (by decide) (by decide) (by decide) (by decide)

/-- C9: equality and strict ordering on wrapped values are inherited
directly from the raw type: `wrap(a) == wrap(b)` computes exactly
`a == b` and `wrap(a) < wrap(b)` computes exactly `a < b`; in particular,
for a value `nan` the raw equality declares unequal to itself,
`wrap(nan) == wrap(nan)` is false. -/
theorem eq_ord_inherited {F : Type} (beqF ltF : F → F → Bool) (a b nan : F)
    (hnan : beqF nan nan = false) :
    Fast.beq beqF (Fast.new a) (Fast.new b) = beqF a b ∧
    Fast.ltb ltF (Fast.new a) (Fast.new b) = ltF a b ∧
    Fast.beq beqF (Fast.new nan) (Fast.new nan) = false :=
  ⟨rfl, rfl, hnan⟩

/-- Witness for C9: instantiating the raw type with the integers and a raw
equality that (like IEEE equality on NaN) declares `0` unequal to itself
discharges the hypothesis. -/
theorem eq_ord_inherited_witness :
    Fast.beq (fun _ _ : Int => false) (Fast.new 1) (Fast.new 2)
      = (fun _ _ : Int => false) 1 2 ∧
    Fast.ltb (fun a b : Int => decide (a < b)) (Fast.new 1) (Fast.new 2)
      = (fun a b : Int => decide (a < b)) 1 2 ∧
    Fast.beq (fun _ _ : Int => false) (Fast.new 0) (Fast.new 0) = false :=
  eq_ord_inherited (fun _ _ : Int => false) (fun a b : Int => decide (a < b)) 1 2 0 rfl

/-- C10: every arithmetic operation of the public surface is deterministic:
applied to equal operand values it produces equal results, in every operand
shape and in the compound-assignment form — the result depends on nothing
but the operand values. -/
theorem ops_deterministic {F : Type} (I : FastIntrinsics F) (op : Op) (a a2 b b2 : F)
    (ha : a = a2) (hb : b = b2) :
    binOpWR I op (Fast.new a) b = binOpWR I op (Fast.new a2) b2 ∧
    binOpRW I op a (Fast.new b) = binOpRW I op a2 (Fast.new b2) ∧
    binOpWW I op (Fast.new a) (Fast.new b) = binOpWW I op (Fast.new a2) (Fast.new b2) ∧
    assignOp (binOpWW I op) (Fast.new a) (Fast.new b)
      = assignOp (binOpWW I op) (Fast.new a2) (Fast.new b2) := by
  subst ha
  subst hb
  exact ⟨rfl, rfl, rfl, rfl⟩

/-- Witness for C10: the determinism theorem applied at a concrete integer
instantiation with syntactically equal operands. -/
theorem ops_deterministic_witness :
    binOpWR ⟨(· + ·), (· - ·), (· * ·), (· / ·), (· % ·)⟩ Op.add (Fast.new (2 : Int)) 1
      = binOpWR ⟨(· + ·), (· - ·), (· * ·), (· / ·), (· % ·)⟩ Op.add (Fast.new 2) 1 ∧
    binOpRW ⟨(· + ·), (· - ·), (· * ·), (· / ·), (· % ·)⟩ Op.add (2 : Int) (Fast.new 1)
      = binOpRW ⟨(· + ·), (· - ·), (· * ·), (· / ·), (· % ·)⟩ Op.add 2 (Fast.new 1) ∧
    binOpWW ⟨(· + ·), (· - ·), (· * ·), (· / ·), (· % ·)⟩ Op.add
        (Fast.new (2 : Int)) (Fast.new 1)
      = binOpWW ⟨(· + ·), (· - ·), (· * ·), (· / ·), (· % ·)⟩ Op.add
        (Fast.new 2) (Fast.new 1) ∧
    assignOp (binOpWW ⟨(· + ·), (· - ·), (· * ·), (· / ·), (· % ·)⟩ Op.add)
        (Fast.new (2 : Int)) (Fast.new 1)
      = assignOp (binOpWW ⟨(· + ·), (· - ·), (· * ·), (· / ·), (· % ·)⟩ Op.add)
        (Fast.new 2) (Fast.new 1) :=
  ops_deterministic ⟨(· + ·), (· - ·), (· * ·), (· / ·), (· % ·)⟩ Op.add 2 2 1 1 rfl rfl
